import Mathlib

/-!
Verification development for the food-tracker application (`src/app.py`).

The embedding models the text-level helpers (Python `str.replace`,
`str.strip`, `json.loads`), the Gemini recognition fallback loop
`analyze_image_self_healing`, and the persistence helpers `upload_img`
and `save_to_db`.  Text is modelled as `List Char`; the HTTP world is a
function from model name to a network behaviour; Python exceptions are
modelled as `Option`/explicit error classifications, mirroring the
`try`/`except` structure of the source.
-/

namespace FoodApp

/-- JSON whitespace characters, the ones `json.loads` skips between tokens. -/
def isJWs (c : Char) : Bool :=
  c == ' ' || c == '\t' || c == '\n' || c == '\r'

/-- ASCII whitespace stripped by Python `str.strip()` (JSON whitespace plus
vertical tab and form feed). -/
def isPyWs (c : Char) : Bool :=
  c == ' ' || c == '\t' || c == '\n' || c == '\r' || c == '\x0b' || c == '\x0c'

/-- Drop the longest suffix whose characters all satisfy `p`. -/
def dropTrailing (p : Char → Bool) (s : List Char) : List Char :=
  ((s.reverse).dropWhile p).reverse

/-- Strip characters satisfying `p` from both ends. -/
def stripWith (p : Char → Bool) (s : List Char) : List Char :=
  dropTrailing p (s.dropWhile p)

/-- Python `str.strip()` on the ASCII whitespace set. -/
def pyStrip (s : List Char) : List Char := stripWith isPyWs s

/-- Strip of JSON whitespace only. -/
def jstrip (s : List Char) : List Char := stripWith isJWs s

/-- Fuel-driven worker for Python `str.replace(pat, "")` with a nonempty
pattern `p0 :: pt`: scan left to right, removing every (non-overlapping)
occurrence of the pattern. -/
def replaceAllF (p0 : Char) (pt : List Char) : Nat → List Char → List Char
  | 0, s => s
  | _ + 1, [] => []
  | fuel + 1, c :: rest =>
    if (p0 :: pt).isPrefixOf (c :: rest) then
      replaceAllF p0 pt fuel (rest.drop pt.length)
    else
      c :: replaceAllF p0 pt fuel rest

/-- Python `s.replace(p0 :: pt, "")`. -/
def replaceAll (p0 : Char) (pt : List Char) (s : List Char) : List Char :=
  replaceAllF p0 pt s.length s

/-- The cleaning step of `analyze_image_self_healing` (src/app.py line 110):
`raw_text.replace("```json", "").replace("```", "").strip()`. -/
def clean_text (s : List Char) : List Char :=
  pyStrip (replaceAll '\x60' "``".data (replaceAll '\x60' "``json".data s))

/-- JSON values as produced by `json.loads`.  Numbers keep the integer part,
the fraction digits and the exponent of the lexeme. -/
inductive Json where
  | null : Json
  | bool (b : Bool) : Json
  | num (ip : Int) (fp : List Char) (ep : Int) : Json
  | str (s : List Char) : Json
  | arr (elems : List Json) : Json
  | obj (members : List (List Char × Json)) : Json

/-- Hexadecimal digit test. -/
def isHexD (c : Char) : Bool :=
  c.isDigit || ('a' ≤ c && c ≤ 'f') || ('A' ≤ c && c ≤ 'F')

/-- Value of a hexadecimal digit. -/
def hexVal (c : Char) : Nat :=
  if c.isDigit then c.toNat - 48
  else if 'a' ≤ c && c ≤ 'f' then c.toNat - 87
  else c.toNat - 55

/-- Parse the body of a JSON string literal (after the opening quote),
resolving escape sequences and rejecting raw control characters, as
Python's strict `json.loads` does.  Returns the decoded characters and the
remainder after the closing quote. -/
def parseStrBody : List Char → Option (List Char × List Char)
  | [] => none
  | c :: rest =>
    if c = '"' then some ([], rest)
    else if c = '\\' then
      match rest with
      | [] => none
      | e :: rest2 =>
        if e = '"' then (parseStrBody rest2).map (fun p => ('"' :: p.1, p.2))
        else if e = '\\' then (parseStrBody rest2).map (fun p => ('\\' :: p.1, p.2))
        else if e = '/' then (parseStrBody rest2).map (fun p => ('/' :: p.1, p.2))
        else if e = 'b' then (parseStrBody rest2).map (fun p => ('\x08' :: p.1, p.2))
        else if e = 'f' then (parseStrBody rest2).map (fun p => ('\x0c' :: p.1, p.2))
        else if e = 'n' then (parseStrBody rest2).map (fun p => ('\n' :: p.1, p.2))
        else if e = 'r' then (parseStrBody rest2).map (fun p => ('\r' :: p.1, p.2))
        else if e = 't' then (parseStrBody rest2).map (fun p => ('\t' :: p.1, p.2))
        else if e = 'u' then
          match rest2 with
          | h1 :: h2 :: h3 :: h4 :: rest3 =>
            if isHexD h1 && isHexD h2 && isHexD h3 && isHexD h4 then
              (parseStrBody rest3).map (fun p =>
                (Char.ofNat (((hexVal h1 * 16 + hexVal h2) * 16 + hexVal h3) * 16 + hexVal h4) :: p.1, p.2))
            else none
          | _ => none
        else none
    else if c.toNat < 32 then none
    else (parseStrBody rest).map (fun p => (c :: p.1, p.2))

/-- Numeric value of a list of decimal digits. -/
def digitsVal (ds : List Char) : Nat :=
  ds.foldl (fun a c => a * 10 + (c.toNat - 48)) 0

/-- Parse a JSON number lexeme (Python grammar: optional minus, integer part
without leading zeros, optional fraction, optional exponent). -/
def parseNum (s : List Char) : Option (Json × List Char) :=
  let negs : Bool × List Char := match s with
    | '-' :: r => (true, r)
    | _ => (false, s)
  let neg := negs.1
  let s1 := negs.2
  match s1 with
  | [] => none
  | d :: _ =>
    if ¬ d.isDigit then none
    else
      let ds := s1.takeWhile Char.isDigit
      let r1 := s1.dropWhile Char.isDigit
      if 1 < ds.length ∧ ds.headI = '0' then none
      else
        let ipn : Int := Int.ofNat (digitsVal ds)
        let ip : Int := if neg then -ipn else ipn
        match r1 with
        | '.' :: r2 =>
          let fs := r2.takeWhile Char.isDigit
          let r3 := r2.dropWhile Char.isDigit
          if fs = [] then none
          else
            match r3 with
            | 'e' :: r4 => parseNumExp ip fs r4
            | 'E' :: r4 => parseNumExp ip fs r4
            | _ => some (Json.num ip fs 0, r3)
        | 'e' :: r4 => parseNumExp ip [] r4
        | 'E' :: r4 => parseNumExp ip [] r4
        | _ => some (Json.num ip [] 0, r1)
where
  /-- Parse the exponent part after `e`/`E`. -/
  parseNumExp (ip : Int) (fs : List Char) (r : List Char) : Option (Json × List Char) :=
    let sgns : Bool × List Char := match r with
      | '+' :: r2 => (false, r2)
      | '-' :: r2 => (true, r2)
      | _ => (false, r)
    let es := sgns.2.takeWhile Char.isDigit
    let r2 := sgns.2.dropWhile Char.isDigit
    if es = [] then none
    else
      let e : Int := Int.ofNat (digitsVal es)
      some (Json.num ip fs (if sgns.1 then -e else e), r2)

/-- Parsing modes of the recursive-descent JSON reader. -/
inductive PReq where
  | val : PReq
  | elems : PReq
  | elems1 : PReq
  | members : PReq
  | members1 : PReq

/-- Results of the JSON reader, one shape per mode. -/
inductive PRes where
  | v (j : Json) : PRes
  | vs (js : List Json) : PRes
  | ms (m : List (List Char × Json)) : PRes

/-- Fuel-driven recursive-descent JSON parser.  `val` parses one value,
`elems`/`elems1` the contents of an array after `[`, `members`/`members1`
the contents of an object after `\x7b`. -/
def parseF : Nat → PReq → List Char → Option (PRes × List Char)
  | 0, _, _ => none
  | fuel + 1, PReq.val, s =>
    match s.dropWhile isJWs with
    | [] => none
    | c :: rest =>
      if c = 'n' then
        match rest with
        | 'u' :: 'l' :: 'l' :: r => some (PRes.v Json.null, r)
        | _ => none
      else if c = 't' then
        match rest with
        | 'r' :: 'u' :: 'e' :: r => some (PRes.v (Json.bool true), r)
        | _ => none
      else if c = 'f' then
        match rest with
        | 'a' :: 'l' :: 's' :: 'e' :: r => some (PRes.v (Json.bool false), r)
        | _ => none
      else if c = '"' then
        match parseStrBody rest with
        | some (cs, r) => some (PRes.v (Json.str cs), r)
        | none => none
      else if c = '[' then
        match parseF fuel PReq.elems rest with
        | some (PRes.vs js, r) => some (PRes.v (Json.arr js), r)
        | _ => none
      else if c = '\x7b' then
        match parseF fuel PReq.members rest with
        | some (PRes.ms m, r) => some (PRes.v (Json.obj m), r)
        | _ => none
      else if c = '-' ∨ c.isDigit then
        match parseNum (c :: rest) with
        | some (j, r) => some (PRes.v j, r)
        | none => none
      else none
  | fuel + 1, PReq.elems, s =>
    match s.dropWhile isJWs with
    | [] => none
    | c :: rest =>
      if c = ']' then some (PRes.vs [], rest)
      else parseF fuel PReq.elems1 (c :: rest)
  | fuel + 1, PReq.elems1, s =>
    match parseF fuel PReq.val s with
    | some (PRes.v j, r) =>
      (match r.dropWhile isJWs with
      | ',' :: r2 =>
        match parseF fuel PReq.elems1 r2 with
        | some (PRes.vs js, r3) => some (PRes.vs (j :: js), r3)
        | _ => none
      | ']' :: r2 => some (PRes.vs [j], r2)
      | _ => none)
    | _ => none
  | fuel + 1, PReq.members, s =>
    match s.dropWhile isJWs with
    | [] => none
    | c :: rest =>
      if c = '\x7d' then some (PRes.ms [], rest)
      else parseF fuel PReq.members1 (c :: rest)
  | fuel + 1, PReq.members1, s =>
    match s.dropWhile isJWs with
    | '"' :: rest =>
      (match parseStrBody rest with
      | some (k, r) =>
        (match r.dropWhile isJWs with
        | ':' :: r2 =>
          (match parseF fuel PReq.val r2 with
          | some (PRes.v j, r3) =>
            (match r3.dropWhile isJWs with
            | ',' :: r4 =>
              (match parseF fuel PReq.members1 r4 with
              | some (PRes.ms m, r5) => some (PRes.ms ((k, j) :: m), r5)
              | _ => none)
            | '\x7d' :: r4 => some (PRes.ms [(k, j)], r4)
            | _ => none)
          | _ => none)
        | _ => none)
      | none => none)
    | _ => none

/-- Model of Python `json.loads`: strip surrounding JSON whitespace, parse
one value, and require that the whole input is consumed. -/
def jsonDecodeL (s : List Char) : Option Json :=
  match parseF (3 * (jstrip s).length + 9) PReq.val (jstrip s) with
  | some (PRes.v j, []) => some j
  | _ => none

/-- An object with a status code and a body text: either a real
`requests.Response` or one of the `MockResp` stand-ins built by
`call_gemini_api` (src/app.py lines 74-82). -/
structure Resp where
  status_code : Int
  text : List Char

/-- Body of the `MockResp` built on `requests.exceptions.ConnectionError`
(src/app.py line 76). -/
def connectionErrorText : List Char :=
  "无法连接到 Google 服务器。请检查 secrets.toml 中的 [proxy] url 配置是否正确。".data

/-- Behaviour of the network for one request: a response, a connection
error, or another exception raised by `requests.post`. -/
inductive NetBehavior where
  | ok (r : Resp) : NetBehavior
  | connectionError : NetBehavior
  | otherError (msg : List Char) : NetBehavior

/-- `call_gemini_api` (src/app.py lines 36-82): issue the request and
convert a `ConnectionError` to a mock response with status -1, any other
exception to a mock response with status -2. -/
def call_gemini_api (net : String → NetBehavior) (model : String) : Resp :=
  match net model with
  | NetBehavior.ok r => r
  | NetBehavior.connectionError => { status_code := -1, text := connectionErrorText }
  | NetBehavior.otherError m => { status_code := -2, text := "请求异常: ".data ++ m }

/-- Python truthiness of a decoded JSON value. -/
def truthy : Json → Bool
  | Json.null => false
  | Json.bool b => b
  | Json.num ip fp _ => !(ip == 0 && fp.all (fun c => c == '0'))
  | Json.str s => !s.isEmpty
  | Json.arr xs => !xs.isEmpty
  | Json.obj m => !m.isEmpty

/-- Lookup of a key in a decoded JSON object; with duplicate keys the last
occurrence wins, as in a Python `dict` built by `json.loads`. -/
def objFind (m : List (List Char × Json)) (k : List Char) : Option Json :=
  (m.reverse.find? (fun p => p.1 == k)).map (fun p => p.2)

/-- Python `dict.get(k, d)`. -/
def objGet (m : List (List Char × Json)) (k : List Char) (d : Json) : Json :=
  match objFind m k with
  | some v => v
  | none => d

/-- Whether a list of decoded JSON values contains the string `"candidates"`
(Python `in` on a list). -/
def candListMem : List Json → Bool
  | [] => false
  | Json.str s :: rest => s == "candidates".data || candListMem rest
  | _ :: rest => candListMem rest

/-- Decidable substring test (Python `in` on a string). -/
def isSubL (p : List Char) (s : List Char) : Bool :=
  (List.range (s.length + 1)).any (fun i => p.isPrefixOf (s.drop i))

/-- Outcome of evaluating `'candidates' in res_data and res_data['candidates']`
(src/app.py line 107) on a decoded body.  `raisesError` models a Python
`TypeError` (caught by the surrounding `except`), `emptyData` the `else`
branch, `proceed v` the truthy lookup result. -/
inductive CandCheck where
  | raisesError : CandCheck
  | emptyData : CandCheck
  | proceed (v : Json) : CandCheck

/-- Evaluate the `'candidates'` membership-and-truthiness test the way
Python does on each possible shape of the decoded body. -/
def candidatesCheck : Json → CandCheck
  | Json.obj m =>
    match objFind m "candidates".data with
    | none => CandCheck.emptyData
    | some v => if truthy v then CandCheck.proceed v else CandCheck.emptyData
  | Json.arr xs =>
    if candListMem xs then CandCheck.raisesError else CandCheck.emptyData
  | Json.str s =>
    if isSubL "candidates".data s then CandCheck.raisesError else CandCheck.emptyData
  | _ => CandCheck.raisesError

/-- Extraction `res_data['candidates'][0]['content']['parts'][0]['text']`
(src/app.py line 108); `none` models any `KeyError`/`IndexError`/`TypeError`/
`AttributeError` raised on the way (all caught by the surrounding `except`). -/
def extractRaw : Json → Option (List Char)
  | Json.arr (e0 :: _) =>
    (match e0 with
    | Json.obj m1 =>
      (match objFind m1 "content".data with
      | some (Json.obj m2) =>
        (match objFind m2 "parts".data with
        | some (Json.arr (p0 :: _)) =>
          (match p0 with
          | Json.obj m3 =>
            (match objFind m3 "text".data with
            | some (Json.str s) => some s
            | _ => none)
          | _ => none)
        | _ => none)
      | some _ => none
      | none => none)
    | _ => none)
  | _ => none

/-- Classification of one candidate's response by the body of the `for`
loop in `analyze_image_self_healing` (src/app.py lines 104-136): either the
parsed object is returned, or an error message is recorded; `slept` records
whether the branch executed `time.sleep(2)` (only the 429 branch does). -/
inductive Classified where
  | success (j : Json) : Classified
  | failure (msg : List Char) (slept : Bool) : Classified

/-- Classify one response exactly as the loop body does.  Messages elide
the interpolated exception text of `f"JSON解析失败: {e}"`. -/
def classify (resp : Resp) : Classified :=
  if resp.status_code = 200 then
    match jsonDecodeL resp.text with
    | none => Classified.failure "JSON解析失败".data false
    | some rd =>
      match candidatesCheck rd with
      | CandCheck.raisesError => Classified.failure "JSON解析失败".data false
      | CandCheck.emptyData => Classified.failure "API返回空数据".data false
      | CandCheck.proceed v =>
        match extractRaw v with
        | none => Classified.failure "JSON解析失败".data false
        | some raw =>
          match jsonDecodeL (clean_text raw) with
          | some j => Classified.success j
          | none => Classified.failure "JSON解析失败".data false
  else if resp.status_code = 429 then Classified.failure "额度已满 (429)".data true
  else if resp.status_code = 404 then Classified.failure "模型未找到 (404)".data false
  else Classified.failure ("错误代码 ".data ++ (toString resp.status_code).data) false

/-- Observable behaviour of one run of the fallback loop: the models
actually requested in order, the models after which the loop slept, the
`error_summary` entries, whether the connectivity error (`st.error` at
line 143) and the all-failed error (`st.error` at line 147) were shown,
and the returned value (`none` models Python `None`). -/
structure LoopTrace where
  requested : List String
  sleeps : List String
  summary : List (String × List Char)
  netError : Bool
  finalError : Bool
  result : Option Json

/-- The accumulator at loop entry. -/
def initTrace : LoopTrace :=
  { requested := [], sleeps := [], summary := [], netError := false,
    finalError := false, result := none }

/-- The `for model in models_to_try` loop of `analyze_image_self_healing`
(src/app.py lines 99-153), one candidate per step: request, classify,
record the error, abort on status -1, otherwise continue; after the last
candidate report the final failure. -/
def runModels (api : String → Resp) : List String → LoopTrace → LoopTrace
  | [], acc => { acc with finalError := true }
  | m :: rest, acc =>
    let resp := api m
    let acc1 := { acc with requested := acc.requested ++ [m] }
    match classify resp with
    | Classified.success j => { acc1 with result := some j }
    | Classified.failure msg slept =>
      let acc2 := { acc1 with
        sleeps := if slept then acc1.sleeps ++ [m] else acc1.sleeps,
        summary := acc1.summary ++ [(m, msg)] }
      if resp.status_code = -1 then { acc2 with netError := true }
      else runModels api rest acc2

/-- The fixed candidate list (src/app.py lines 89-94). -/
def models_to_try : List String :=
  ["gemini-1.5-flash-latest", "gemini-1.5-flash-001",
   "gemini-1.5-pro-latest", "gemini-2.0-flash-exp"]

/-- `analyze_image_self_healing` (src/app.py lines 84-153) as a function of
the network behaviour. -/
def analyze_image_self_healing (api : String → Resp) : LoopTrace :=
  runModels api models_to_try initTrace

/-- The record built by `save_to_db` (src/app.py lines 174-180); every
field holds a decoded JSON value, as the Python dict does. -/
structure MealRecord where
  food_name : Json
  calories : Json
  nutrients : Json
  analysis : Json
  image_url : Json

/-- Build the record from the parsed result's members and the upload URL
(src/app.py lines 174-180): `data.get` defaults for the four fields, and
`url if url else ""` for the image URL. -/
def mkRecord (m : List (List Char × Json)) (url : Option (List Char)) : MealRecord :=
  { food_name := objGet m "food_name".data (Json.str "未知食物".data),
    calories := objGet m "calories".data (Json.num 0 [] 0),
    nutrients := objGet m "nutrients".data (Json.str "无".data),
    analysis := objGet m "analysis".data (Json.str "无".data),
    image_url := match url with
      | some u => if u.isEmpty then Json.str [] else Json.str u
      | none => Json.str [] }

/-- `save_to_db` (src/app.py lines 173-186).  The external table is
modelled as a list of records; `dbOk` is whether the insert call succeeds.
`none` models the `AttributeError` raised by `.get` on a non-dict result
(the record is built outside the `try`). -/
def save_to_db (data : Json) (url : Option (List Char)) (dbOk : Bool)
    (db : List MealRecord) : Option (Bool × List MealRecord) :=
  match data with
  | Json.obj m =>
    if dbOk then some (true, db ++ [mkRecord m url]) else some (false, db)
  | _ => none

/-- The history query (src/app.py line 230): read the five most recent
records; the table itself is returned unchanged. -/
def load_history (db : List MealRecord) : List MealRecord × List MealRecord :=
  ((db.reverse).take 5, db)

/-- `upload_img` (src/app.py lines 156-171): build the storage path from
the timestamp, file name and MIME type; return the public URL on success
and `None` when the storage call raises. -/
def upload_img (storageOk : Bool) (projectUrl : String) (t : Nat)
    (name : String) (mime : String) : Option String :=
  let ext0 := (mime.splitOn "/").getLastD mime
  let ext := if ext0 = "jpeg" then "jpg" else ext0
  let path0 := toString t ++ "_" ++ name
  let path := if path0.endsWith ("." ++ ext) then path0 else path0 ++ "." ++ ext
  if storageOk then
    some (projectUrl ++ "/storage/v1/object/public/food-images/" ++ path)
  else none

/-- The post-recognition part of the button handler (src/app.py lines
213-219): upload the image, then save the record with whatever URL the
upload produced. -/
def process_success (result : Json) (storageOk dbOk : Bool)
    (projectUrl : String) (t : Nat) (name mime : String)
    (db : List MealRecord) : Option (Bool × List MealRecord) :=
  let img_url := upload_img storageOk projectUrl t name mime
  save_to_db result (img_url.map String.data) dbOk db

/-- Network behaviour used as a concrete input: the first candidate gets a
full successful Gemini response, every other candidate a 404. -/
def wBodyC1 : List Char :=
  "\x7b\"candidates\":[\x7b\"content\":\x7b\"parts\":[\x7b\"text\":\"```json\x7b\\\"calories\\\":200\x7d```\"\x7d]\x7d\x7d]\x7d".data

/-- Concrete api function where the first candidate succeeds. -/
def wApiC1 : String → Resp := fun mm =>
  if mm = "gemini-1.5-flash-latest" then { status_code := 200, text := wBodyC1 }
  else { status_code := 404, text := [] }

/-- The model text extracted from `wBodyC1`. -/
def wRawC1 : List Char := "```json\x7b\"calories\":200\x7d```".data

/-- The parsed nutrition object of `wBodyC1`. -/
def wJC1 : Json := Json.obj [("calories".data, Json.num 200 [] 0)]

/-- The `candidates` value of the decoded `wBodyC1`. -/
def wVC1 : Json :=
  Json.arr [Json.obj [("content".data,
    Json.obj [("parts".data, Json.arr [Json.obj [("text".data, Json.str wRawC1)]])])]]

/-- The decoded `wBodyC1`. -/
def wRdC1 : Json := Json.obj [("candidates".data, wVC1)]

/-- Concrete api function where the first candidate gets a 404 and every
later candidate a connection error. -/
def wApiC2 : String → Resp := fun mm =>
  if mm = "gemini-1.5-flash-latest" then { status_code := 404, text := [] }
  else { status_code := -1, text := connectionErrorText }

/-- Concrete api function where every candidate gets a 404. -/
def wApi404 : String → Resp := fun _ => { status_code := 404, text := [] }

theorem runModels_nil (api : String → Resp) (acc : LoopTrace) :
    runModels api [] acc = { acc with finalError := true } := rfl

theorem runModels_cons_success (api : String → Resp) (m : String) (rest : List String)
    (acc : LoopTrace) (j : Json) (h : classify (api m) = Classified.success j) :
    runModels api (m :: rest) acc =
      { acc with requested := acc.requested ++ [m], result := some j } := by
  simp only [runModels, h]

theorem runModels_cons_fail (api : String → Resp) (m : String) (rest : List String)
    (acc : LoopTrace) (msg : List Char) (slept : Bool)
    (hc : classify (api m) = Classified.failure msg slept)
    (hne : (api m).status_code ≠ -1) :
    runModels api (m :: rest) acc =
      runModels api rest
        { acc with
          requested := acc.requested ++ [m],
          sleeps := if slept then acc.sleeps ++ [m] else acc.sleeps,
          summary := acc.summary ++ [(m, msg)] } := by
  simp only [runModels, hc]
  rw [if_neg hne]

theorem runModels_cons_abort (api : String → Resp) (m : String) (rest : List String)
    (acc : LoopTrace) (msg : List Char) (slept : Bool)
    (hc : classify (api m) = Classified.failure msg slept)
    (h1 : (api m).status_code = -1) :
    runModels api (m :: rest) acc =
      { acc with
        requested := acc.requested ++ [m],
        sleeps := if slept then acc.sleeps ++ [m] else acc.sleeps,
        summary := acc.summary ++ [(m, msg)],
        netError := true } := by
  simp only [runModels, hc]
  rw [if_pos h1]

theorem classify_of_ne200 (r : Resp) (h : r.status_code ≠ 200) :
    ∃ msg slept, classify r = Classified.failure msg slept := by
  unfold classify
  rw [if_neg h]
  by_cases h2 : r.status_code = 429
  · rw [if_pos h2]; exact ⟨_, _, rfl⟩
  · rw [if_neg h2]
    by_cases h3 : r.status_code = 404
    · rw [if_pos h3]; exact ⟨_, _, rfl⟩
    · rw [if_neg h3]; exact ⟨_, _, rfl⟩

theorem classify_status_404 (r : Resp) (h : r.status_code = 404) :
    classify r = Classified.failure "模型未找到 (404)".data false := by
  unfold classify
  rw [h]
  norm_num

theorem runModels_all_fail (api : String → Resp) :
    ∀ (ms : List String) (acc : LoopTrace),
      (∀ m ∈ ms, (∃ msg slept, classify (api m) = Classified.failure msg slept) ∧
          (api m).status_code ≠ -1) →
      (runModels api ms acc).requested = acc.requested ++ ms ∧
      (runModels api ms acc).result = acc.result ∧
      (runModels api ms acc).finalError = true := by
  intro ms
  induction ms with
  | nil =>
    intro acc _
    refine ⟨by simp [runModels_nil], rfl, rfl⟩
  | cons m rest ih =>
    intro acc hall
    obtain ⟨⟨msg, slept, hcl⟩, hne⟩ := hall m (List.mem_cons_self m rest)
    rw [runModels_cons_fail api m rest acc msg slept hcl hne]
    obtain ⟨h1, h2, h3⟩ := ih _ (fun q hq => hall q (List.mem_cons_of_mem _ hq))
    refine ⟨?_, h2, h3⟩
    rw [h1]
    simp

theorem runModels_net_abort (api : String → Resp) :
    ∀ (pre : List String) (m : String) (post : List String) (acc : LoopTrace),
      (∀ p ∈ pre, (∃ msg slept, classify (api p) = Classified.failure msg slept) ∧
          (api p).status_code ≠ -1) →
      (api m).status_code = -1 →
      (runModels api (pre ++ m :: post) acc).requested = acc.requested ++ pre ++ [m] ∧
      (runModels api (pre ++ m :: post) acc).netError = true ∧
      (runModels api (pre ++ m :: post) acc).result = acc.result := by
  intro pre
  induction pre with
  | nil =>
    intro m post acc _ hm
    obtain ⟨msg, slept, hcl⟩ := classify_of_ne200 (api m) (by rw [hm]; decide)
    rw [List.nil_append,
      runModels_cons_abort api m post acc msg slept hcl hm]
    exact ⟨by simp, rfl, rfl⟩
  | cons p pre ih =>
    intro m post acc hpre hm
    obtain ⟨⟨msg, slept, hcl⟩, hne⟩ := hpre p (List.mem_cons_self p pre)
    rw [List.cons_append, runModels_cons_fail api p _ acc msg slept hcl hne]
    obtain ⟨h1, h2, h3⟩ := ih m post _ (fun q hq => hpre q (List.mem_cons_of_mem _ hq)) hm
    refine ⟨?_, h2, by rw [h3]⟩
    rw [h1]
    simp

theorem runModels_result_or_reported (api : String → Resp) :
    ∀ (ms : List String) (acc : LoopTrace),
      (∃ j, (runModels api ms acc).result = some j) ∨
      ((runModels api ms acc).result = acc.result ∧
        ((runModels api ms acc).netError = true ∨ (runModels api ms acc).finalError = true)) := by
  intro ms
  induction ms with
  | nil =>
    intro acc
    exact Or.inr ⟨rfl, Or.inr rfl⟩
  | cons m rest ih =>
    intro acc
    cases hcl : classify (api m) with
    | success j =>
      rw [runModels_cons_success api m rest acc j hcl]
      exact Or.inl ⟨j, rfl⟩
    | failure msg slept =>
      by_cases hne : (api m).status_code = -1
      · rw [runModels_cons_abort api m rest acc msg slept hcl hne]
        exact Or.inr ⟨rfl, Or.inl rfl⟩
      · rw [runModels_cons_fail api m rest acc msg slept hcl hne]
        rcases ih _ with h | ⟨h1, h2⟩
        · exact Or.inl h
        · exact Or.inr ⟨h1, h2⟩

theorem runModels_requested_prefix (api : String → Resp) :
    ∀ (ms : List String) (acc : LoopTrace),
      ∃ pfx rest0, (runModels api ms acc).requested = acc.requested ++ pfx ∧
        pfx ++ rest0 = ms := by
  intro ms
  induction ms with
  | nil =>
    intro acc
    exact ⟨[], [], by simp [runModels_nil], rfl⟩
  | cons m rest ih =>
    intro acc
    cases hcl : classify (api m) with
    | success j =>
      rw [runModels_cons_success api m rest acc j hcl]
      exact ⟨[m], rest, rfl, rfl⟩
    | failure msg slept =>
      by_cases hne : (api m).status_code = -1
      · rw [runModels_cons_abort api m rest acc msg slept hcl hne]
        exact ⟨[m], rest, rfl, rfl⟩
      · rw [runModels_cons_fail api m rest acc msg slept hcl hne]
        obtain ⟨pfx, rest0, h1, h2⟩ := ih _
        refine ⟨m :: pfx, rest0, ?_, by rw [List.cons_append, h2]⟩
        rw [h1]
        simp

/-- C1: if the first candidate model's response has status 200, its body
decodes, the `candidates` check passes, the model text is extracted, and
the cleaned text decodes to `j`, then the loop returns `j` and requests
only the first candidate. -/
theorem C1_first_candidate_success (api : String → Resp) (rd v : Json)
    (raw : List Char) (j : Json)
    (h200 : (api "gemini-1.5-flash-latest").status_code = 200)
    (hrd : jsonDecodeL (api "gemini-1.5-flash-latest").text = some rd)
    (hc : candidatesCheck rd = CandCheck.proceed v)
    (hx : extractRaw v = some raw)
    (hj : jsonDecodeL (clean_text raw) = some j) :
    (analyze_image_self_healing api).result = some j ∧
    (analyze_image_self_healing api).requested = ["gemini-1.5-flash-latest"] := by
  have hcl : classify (api "gemini-1.5-flash-latest") = Classified.success j := by
    unfold classify
    rw [if_pos h200, hrd]
    simp only [hc, hx, hj]
  unfold analyze_image_self_healing models_to_try
  rw [runModels_cons_success api _ _ initTrace j hcl]
  exact ⟨rfl, rfl⟩

/-- Witness for C1 at the concrete network behaviour `wApiC1`. -/
theorem C1_witness :
    (analyze_image_self_healing wApiC1).result = some wJC1 ∧
    (analyze_image_self_healing wApiC1).requested = ["gemini-1.5-flash-latest"] :=
  C1_first_candidate_success wApiC1 wRdC1 wVC1 wRawC1 wJC1 rfl rfl rfl rfl rfl

/-- C2: if every candidate before `m` fails (without a connection error)
and candidate `m` gets a connection error (status -1), the loop stops right
after `m`: it requests exactly the candidates up to and including `m`,
reports the connectivity failure, and returns `None`. -/
theorem C2_network_unreachable_aborts (api : String → Resp)
    (pre : List String) (m : String) (post : List String)
    (hsplit : models_to_try = pre ++ m :: post)
    (hpre : ∀ p ∈ pre, (∃ msg slept, classify (api p) = Classified.failure msg slept) ∧
        (api p).status_code ≠ -1)
    (hm : (api m).status_code = -1) :
    (analyze_image_self_healing api).requested = pre ++ [m] ∧
    (analyze_image_self_healing api).netError = true ∧
    (analyze_image_self_healing api).result = none := by
  unfold analyze_image_self_healing
  rw [hsplit]
  obtain ⟨h1, h2, h3⟩ := runModels_net_abort api pre m post initTrace hpre hm
  exact ⟨by rw [h1]; simp [initTrace], h2, by rw [h3]; rfl⟩

/-- Witness for C2: the first candidate 404s, the second gets a connection
error, and the loop stops after two requests. -/
theorem C2_witness :
    (analyze_image_self_healing wApiC2).requested =
      ["gemini-1.5-flash-latest"] ++ ["gemini-1.5-flash-001"] ∧
    (analyze_image_self_healing wApiC2).netError = true ∧
    (analyze_image_self_healing wApiC2).result = none :=
  C2_network_unreachable_aborts wApiC2 ["gemini-1.5-flash-latest"]
    "gemini-1.5-flash-001" ["gemini-1.5-pro-latest", "gemini-2.0-flash-exp"] rfl
    (by
      intro p hp
      have hp' : p = "gemini-1.5-flash-latest" := by simpa using hp
      subst hp'
      exact ⟨⟨_, _, rfl⟩, by decide⟩)
    rfl

/-- C3: if every candidate returns 404, the loop requests each candidate
exactly once (in order) and returns `None`, which is distinct from every
parsed result (in particular from a structured result with calories 0). -/
theorem C3_all_not_found (api : String → Resp)
    (h : ∀ m ∈ models_to_try, (api m).status_code = 404) :
    (analyze_image_self_healing api).requested = models_to_try ∧
    (analyze_image_self_healing api).result = none ∧
    ∀ j : Json, (analyze_image_self_healing api).result ≠ some j := by
  have hall : ∀ m ∈ models_to_try,
      (∃ msg slept, classify (api m) = Classified.failure msg slept) ∧
      (api m).status_code ≠ -1 := by
    intro m hm
    refine ⟨⟨_, _, classify_status_404 (api m) (h m hm)⟩, ?_⟩
    rw [h m hm]
    decide
  obtain ⟨h1, h2, _⟩ := runModels_all_fail api models_to_try initTrace hall
  unfold analyze_image_self_healing
  refine ⟨by rw [h1]; simp [initTrace], by rw [h2]; rfl, ?_⟩
  intro j
  rw [h2]
  simp [initTrace]

/-- Witness for C3 at the network behaviour that 404s every model. -/
theorem C3_witness :
    (analyze_image_self_healing wApi404).requested = models_to_try ∧
    (analyze_image_self_healing wApi404).result = none ∧
    ∀ j : Json, (analyze_image_self_healing wApi404).result ≠ some j :=
  C3_all_not_found wApi404 (fun _ _ => rfl)

/-- C6: a candidate classified as a failure without a sleep (404,
other-error, or a 200 whose content is unparseable or empty) and without a
connection error makes the loop advance to the next candidate, recording
the error; the sleeps list is untouched, so there is no delay, and the
loop simply continues with the remaining candidates. -/
theorem C6_advance_without_delay (api : String → Resp) (m : String)
    (rest : List String) (acc : LoopTrace) (msg : List Char)
    (hc : classify (api m) = Classified.failure msg false)
    (hne : (api m).status_code ≠ -1) :
    runModels api (m :: rest) acc =
      runModels api rest
        { acc with
          requested := acc.requested ++ [m],
          summary := acc.summary ++ [(m, msg)] } ∧
    ({ acc with
        requested := acc.requested ++ [m],
        summary := acc.summary ++ [(m, msg)] } : LoopTrace).sleeps = acc.sleeps := by
  refine ⟨?_, rfl⟩
  have h := runModels_cons_fail api m rest acc msg false hc hne
  simpa using h

/-- Witness for C6: a 404 on the single candidate advances to the empty
remainder without a sleep. -/
theorem C6_witness :
    runModels wApi404 ["gemini-1.5-flash-latest"] initTrace =
      runModels wApi404 []
        { initTrace with
          requested := initTrace.requested ++ ["gemini-1.5-flash-latest"],
          summary := initTrace.summary ++ [("gemini-1.5-flash-latest", "模型未找到 (404)".data)] } ∧
    ({ initTrace with
        requested := initTrace.requested ++ ["gemini-1.5-flash-latest"],
        summary := initTrace.summary ++ [("gemini-1.5-flash-latest", "模型未找到 (404)".data)] } : LoopTrace).sleeps = initTrace.sleeps :=
  C6_advance_without_delay wApi404 "gemini-1.5-flash-latest" [] initTrace
    "模型未找到 (404)".data rfl (by decide)

/-- C8: for every network behaviour (any status code, any body, any
exception raised by the HTTP call), the loop is a total function that
either returns a parsed object or returns `None` after reporting either
the connectivity error or the all-models-failed error; no failure escapes. -/
theorem C8_no_uncaught_failure (net : String → NetBehavior) :
    (∃ j, (analyze_image_self_healing (call_gemini_api net)).result = some j) ∨
    ((analyze_image_self_healing (call_gemini_api net)).result = none ∧
      ((analyze_image_self_healing (call_gemini_api net)).netError = true ∨
        (analyze_image_self_healing (call_gemini_api net)).finalError = true)) := by
  have h := runModels_result_or_reported (call_gemini_api net) models_to_try initTrace
  unfold analyze_image_self_healing
  rcases h with h | ⟨h1, h2⟩
  · exact Or.inl h
  · exact Or.inr ⟨h1, h2⟩

/-- C10: the loop terminates with the models it requested forming a
duplicate-free prefix of the fixed four-element candidate list: at most
four requests, at most one request per candidate, even after a 429. -/
theorem C10_bounded_requests (api : String → Resp) :
    models_to_try.length = 4 ∧
    (analyze_image_self_healing api).requested.length ≤ 4 ∧
    (∃ rest0, (analyze_image_self_healing api).requested ++ rest0 = models_to_try) ∧
    (analyze_image_self_healing api).requested.Nodup ∧
    ∀ m : String, (analyze_image_self_healing api).requested.count m ≤ 1 := by
  obtain ⟨pfx, rest0, h1, h2⟩ := runModels_requested_prefix api models_to_try initTrace
  have hreq : (analyze_image_self_healing api).requested = pfx := by
    unfold analyze_image_self_healing
    rw [h1]
    simp [initTrace]
  have hnd : models_to_try.Nodup := by decide
  have hpnd : pfx.Nodup := by
    rw [← h2] at hnd
    exact List.Nodup.of_append_left hnd
  have hlen : pfx.length ≤ 4 := by
    have := congrArg List.length h2
    simp [models_to_try] at this
    omega
  refine ⟨rfl, by rw [hreq]; exact hlen, ⟨rest0, by rw [hreq]; exact h2⟩,
    by rw [hreq]; exact hpnd, ?_⟩
  intro m
  rw [hreq]
  exact List.nodup_iff_count_le_one.mp hpnd m

/-- C9: the only table operations are the insert of `save_to_db`, which
appends exactly one record (or, when the insert call fails, leaves the
table unchanged), and the history query, which leaves the table unchanged;
no record is ever updated or deleted. -/
theorem C9_append_only (m : List (List Char × Json)) (url : Option (List Char))
    (dbOk : Bool) (db : List MealRecord) :
    (∃ r, save_to_db (Json.obj m) url dbOk db = some r ∧
      (∃ t, db ++ t = r.2) ∧
      (r.2 = db ++ [mkRecord m url] ∨ r.2 = db)) ∧
    (load_history db).2 = db := by
  refine ⟨?_, rfl⟩
  cases dbOk
  · exact ⟨(false, db), rfl, ⟨[], by simp⟩, Or.inr rfl⟩
  · exact ⟨(true, db ++ [mkRecord m url]), rfl, ⟨[mkRecord m url], rfl⟩, Or.inl rfl⟩

/-- C7: when the storage upload fails (`upload_img` returns `None`) and the
insert call itself succeeds, the record is still inserted, with an empty
image URL. -/
theorem C7_storage_failure_preserves_insert (m : List (List Char × Json))
    (projectUrl : String) (t : Nat) (name mime : String) (db : List MealRecord) :
    upload_img false projectUrl t name mime = none ∧
    process_success (Json.obj m) false true projectUrl t name mime db =
      some (true, db ++ [mkRecord m none]) ∧
    (mkRecord m none).image_url = Json.str [] := by
  exact ⟨rfl, rfl, rfl⟩

/-- Counterexample to C5 as stated: on a parsed result missing every field,
the record's defaults are the Chinese sentinels of the source, not
`"unknown"`/`""`/`""`. -/
theorem C5_counterexample :
    (mkRecord [] none).food_name ≠ Json.str "unknown".data ∧
    (mkRecord [] none).nutrients ≠ Json.str [] ∧
    (mkRecord [] none).analysis ≠ Json.str [] := by
  refine ⟨fun h => ?_, fun h => ?_, fun h => ?_⟩
  · have h' : Json.str "未知食物".data = Json.str "unknown".data := h
    injection h' with h2
    exact absurd h2 (by decide)
  · have h' : Json.str "无".data = Json.str [] := h
    injection h' with h2
    exact absurd h2 (by decide)
  · have h' : Json.str "无".data = Json.str [] := h
    injection h' with h2
    exact absurd h2 (by decide)

/-- C5 (amended): each missing field is replaced by the source's documented
default: food_name → "未知食物", calories → 0, nutrients → "无",
analysis → "无". -/
theorem C5_defaults_amended (m : List (List Char × Json)) (url : Option (List Char)) :
    (objFind m "food_name".data = none →
      (mkRecord m url).food_name = Json.str "未知食物".data) ∧
    (objFind m "calories".data = none →
      (mkRecord m url).calories = Json.num 0 [] 0) ∧
    (objFind m "nutrients".data = none →
      (mkRecord m url).nutrients = Json.str "无".data) ∧
    (objFind m "analysis".data = none →
      (mkRecord m url).analysis = Json.str "无".data) := by
  refine ⟨fun h => ?_, fun h => ?_, fun h => ?_, fun h => ?_⟩ <;>
    simp [mkRecord, objGet, h]

/-- Witness for the amended C5 at the empty parsed object. -/
theorem C5_defaults_amended_witness :
    (mkRecord [] none).food_name = Json.str "未知食物".data ∧
    (mkRecord [] none).calories = Json.num 0 [] 0 ∧
    (mkRecord [] none).nutrients = Json.str "无".data ∧
    (mkRecord [] none).analysis = Json.str "无".data := by
  obtain ⟨h1, h2, h3, h4⟩ := C5_defaults_amended [] none
  exact ⟨h1 rfl, h2 rfl, h3 rfl, h4 rfl⟩

theorem replaceAllF_nil_input (p0 : Char) (pt : List Char) :
    ∀ fuel, replaceAllF p0 pt fuel [] = [] := by
  intro fuel
  cases fuel <;> rfl

theorem replaceAllF_skip (p0 : Char) (pt : List Char) :
    ∀ (s : List Char) (fuel : Nat) (t : List Char), s.length ≤ fuel →
      (∀ c ∈ s, c ≠ p0) →
      replaceAllF p0 pt fuel (s ++ t) = s ++ replaceAllF p0 pt (fuel - s.length) t := by
  intro s
  induction s with
  | nil =>
    intro fuel t _ _
    simp
  | cons c s ih =>
    intro fuel t hlen hcl
    have hc : c ≠ p0 := hcl c (List.mem_cons_self c s)
    cases fuel with
    | zero => simp at hlen
    | succ fuel =>
      have hpf : ((p0 :: pt).isPrefixOf (c :: (s ++ t))) = false := by
        simp [List.isPrefixOf, beq_eq_false_iff_ne.mpr (Ne.symm hc)]
      show replaceAllF p0 pt (fuel + 1) (c :: (s ++ t)) = _
      rw [replaceAllF, hpf]
      simp only [Bool.false_eq_true, if_false]
      rw [ih fuel t (by simpa using hlen) (fun d hd => hcl d (List.mem_cons_of_mem _ hd))]
      simp [List.length_cons, Nat.succ_sub_succ]

theorem replaceAllF_head_match (p0 : Char) (pt : List Char) (fuel : Nat) (t : List Char) :
    replaceAllF p0 pt (fuel + 1) ((p0 :: pt) ++ t) = replaceAllF p0 pt fuel t := by
  have hpf : ((p0 :: pt).isPrefixOf ((p0 :: pt) ++ t)) = true :=
    List.isPrefixOf_iff_prefix.mpr ⟨t, rfl⟩
  show replaceAllF p0 pt (fuel + 1) (p0 :: (pt ++ t)) = _
  rw [replaceAllF]
  have hpf' : ((p0 :: pt).isPrefixOf (p0 :: (pt ++ t))) = true := hpf
  rw [hpf']
  simp [List.drop_left]

theorem clean_text_fenced (inner : List Char) (hb : ∀ c ∈ inner, c ≠ '\x60') :
    clean_text ("```json".data ++ inner ++ "```".data) = pyStrip inner := by
  have e1 : replaceAll '\x60' "``json".data ("```json".data ++ inner ++ "```".data) =
      inner ++ "```".data := by
    unfold replaceAll
    have hlen : ("```json".data ++ inner ++ "```".data).length = (inner.length + 9) + 1 := by
      rw [List.length_append, List.length_append]
      rw [show ("```json".data).length = 7 from rfl, show ("```".data).length = 3 from rfl]
      omega
    rw [hlen, List.append_assoc, show "```json".data = '\x60' :: "``json".data from rfl,
      replaceAllF_head_match]
    rw [replaceAllF_skip '\x60' "``json".data inner (inner.length + 9) "```".data
      (by omega) hb]
    rw [show inner.length + 9 - inner.length = 9 from by omega]
    rw [show replaceAllF '\x60' "``json".data 9 "```".data = "```".data from by decide]
  have e2 : replaceAll '\x60' "``".data (inner ++ "```".data) = inner := by
    unfold replaceAll
    have hlen : (inner ++ "```".data).length = inner.length + 3 := by
      rw [List.length_append, show ("```".data).length = 3 from rfl]
    rw [hlen]
    rw [replaceAllF_skip '\x60' "``".data inner (inner.length + 3) "```".data (by omega) hb]
    rw [show inner.length + 3 - inner.length = 3 from by omega]
    rw [show replaceAllF '\x60' "``".data 3 "```".data = [] from by decide]
    simp
  unfold clean_text
  rw [e1, e2]

theorem dropWhile_head_false (p : Char → Bool) :
    ∀ (s : List Char) (c : Char) (t : List Char), s.dropWhile p = c :: t → p c = false := by
  intro s
  induction s with
  | nil =>
    intro c t h
    simp at h
  | cons a r ih =>
    intro c t h
    rw [List.dropWhile_cons] at h
    by_cases ha : p a
    · rw [if_pos ha] at h
      exact ih c t h
    · rw [if_neg ha] at h
      cases h
      exact Bool.not_eq_true _ ▸ eq_false_of_ne_true ha

theorem dropWhile_append_exists (p : Char → Bool) (l : List Char) :
    ∃ pre, pre ++ l.dropWhile p = l := by
  obtain ⟨pre, hpre⟩ := List.dropWhile_suffix (l := l) p
  exact ⟨pre, hpre⟩

theorem stripWith_idem (p : Char → Bool) (s : List Char) :
    stripWith p (stripWith p s) = stripWith p s := by
  cases hu : s.dropWhile p with
  | nil =>
    simp [stripWith, dropTrailing, hu]
  | cons c u =>
    have hc : p c = false := dropWhile_head_false p s c u hu
    have hs : stripWith p s = (((c :: u).reverse).dropWhile p).reverse := by
      simp [stripWith, dropTrailing, hu]
    obtain ⟨pre, hpre⟩ := dropWhile_append_exists p ((c :: u).reverse)
    cases hw : ((c :: u).reverse).dropWhile p with
    | nil =>
      rw [hs, hw]
      simp [stripWith, dropTrailing]
    | cons d w =>
      have hd : p d = false := dropWhile_head_false p _ d w hw
      rw [hw] at hpre
      have hrev : w.reverse ++ d :: pre.reverse = c :: u := by
        have := congrArg List.reverse hpre
        simpa using this
      have hhead : ∃ t2, (d :: w).reverse = c :: t2 := by
        cases hwr : w.reverse with
        | nil =>
          rw [hwr, List.nil_append] at hrev
          obtain ⟨hdc, _⟩ := List.cons.inj hrev
          exact ⟨[], by simp [List.reverse_cons, hwr, hdc]⟩
        | cons e t2 =>
          rw [hwr, List.cons_append] at hrev
          obtain ⟨hec, _⟩ := List.cons.inj hrev
          exact ⟨t2 ++ [d], by rw [List.reverse_cons, hwr, hec, List.cons_append]⟩
      obtain ⟨t2, ht2⟩ := hhead
      rw [hs, hw]
      show stripWith p (d :: w).reverse = (d :: w).reverse
      unfold stripWith dropTrailing
      rw [ht2, List.dropWhile_cons, if_neg (by rw [hc]; exact Bool.false_ne_true), ← ht2]
      rw [List.reverse_reverse, List.dropWhile_cons,
        if_neg (by rw [hd]; exact Bool.false_ne_true)]

theorem dropWhile_congr_chars (p q : Char → Bool) :
    ∀ (s : List Char), (∀ c ∈ s, p c = q c) → s.dropWhile p = s.dropWhile q := by
  intro s
  induction s with
  | nil => intro _; rfl
  | cons a r ih =>
    intro h
    rw [List.dropWhile_cons, List.dropWhile_cons, h a (List.mem_cons_self a r),
      ih (fun c hc => h c (List.mem_cons_of_mem _ hc))]

theorem mem_dropWhile_sub (p : Char → Bool) (s : List Char) (c : Char)
    (h : c ∈ s.dropWhile p) : c ∈ s := by
  obtain ⟨pre, hpre⟩ := dropWhile_append_exists p s
  rw [← hpre]
  exact List.mem_append_right pre h

theorem stripWith_congr (p q : Char → Bool) (s : List Char)
    (h : ∀ c ∈ s, p c = q c) : stripWith p s = stripWith q s := by
  unfold stripWith dropTrailing
  rw [dropWhile_congr_chars p q s h]
  rw [dropWhile_congr_chars p q ((s.dropWhile q).reverse)
    (fun c hc => h c (mem_dropWhile_sub q s c (List.mem_reverse.mp hc)))]

theorem isPyWs_eq_isJWs (c : Char) (h1 : c ≠ '\x0b') (h2 : c ≠ '\x0c') :
    isPyWs c = isJWs c := by
  have e1 : (c == '\x0b') = false := beq_eq_false_iff_ne.mpr h1
  have e2 : (c == '\x0c') = false := beq_eq_false_iff_ne.mpr h2
  simp [isPyWs, isJWs, e1, e2]

theorem pyStrip_eq_jstrip (s : List Char)
    (h : ∀ c ∈ s, c ≠ '\x0b' ∧ c ≠ '\x0c') : pyStrip s = jstrip s := by
  unfold pyStrip jstrip
  exact stripWith_congr isPyWs isJWs s (fun c hc => isPyWs_eq_isJWs c (h c hc).1 (h c hc).2)

theorem jsonDecodeL_pyStrip (s : List Char)
    (h : ∀ c ∈ s, c ≠ '\x0b' ∧ c ≠ '\x0c') : jsonDecodeL (pyStrip s) = jsonDecodeL s := by
  unfold jsonDecodeL
  rw [show jstrip (pyStrip s) = jstrip s from by
    rw [pyStrip_eq_jstrip s h]
    exact stripWith_idem isJWs s]

/-- C4: a body that is exactly a code-fenced JSON payload — `"```json"`,
then fence-free, control-free inner content that `json.loads` accepts,
then `"```"` — is cleaned by the fence-stripping-plus-trim step into text
that decodes successfully (to the same value). -/
theorem C4_fenced_body_decodes (inner : List Char) (v : Json)
    (hb : ∀ c ∈ inner, c ≠ '\x60')
    (hctrl : ∀ c ∈ inner, c ≠ '\x0b' ∧ c ≠ '\x0c')
    (hv : jsonDecodeL inner = some v) :
    jsonDecodeL (clean_text ("```json".data ++ inner ++ "```".data)) = some v := by
  rw [clean_text_fenced inner hb, jsonDecodeL_pyStrip inner hctrl]
  exact hv

/-- Witness for C4 at the body from the spec's end-to-end scenario. -/
theorem C4_witness :
    jsonDecodeL (clean_text ("```json".data ++
        "\n\x7b\"food_name\":\"rice\",\"calories\":200,\"nutrients\":\"carbs\",\"analysis\":\"ok\"\x7d\n".data ++
        "```".data)) =
      some (Json.obj [("food_name".data, Json.str "rice".data),
        ("calories".data, Json.num 200 [] 0),
        ("nutrients".data, Json.str "carbs".data),
        ("analysis".data, Json.str "ok".data)]) :=
  C4_fenced_body_decodes
    "\n\x7b\"food_name\":\"rice\",\"calories\":200,\"nutrients\":\"carbs\",\"analysis\":\"ok\"\x7d\n".data
    (Json.obj [("food_name".data, Json.str "rice".data),
      ("calories".data, Json.num 200 [] 0),
      ("nutrients".data, Json.str "carbs".data),
      ("analysis".data, Json.str "ok".data)])
    (by decide) (by decide) rfl

end FoodApp
